import Mathlib

/-!
# Verification of the dsnt-pose2d telemetry core

Shallow embedding of the metrics-collection layer of the `dsnt-pose2d`
repository, covering:

* `src/dsnt/eval.py` — the `PCKhEvaluator` (masked per-joint threshold
  accuracy over a bank of average meters);
* `src/tele/output/folder.py` — the folder sink: the snapshot `JSONCell`,
  the append-only `GrowingJSONCell`, and `FolderOutput.prepare`.

External collaborators (the `torchnet` meter library, `torch.dist`, the
Python standard library's `os`/`json`/`str.format`) are not part of the
repository; they are modelled from their documented semantics, or, for
the meter, from the specification's description of the Average meter.
All machine reals are modelled as exact rationals `ℚ`: every claim under
verification concerns control flow, data flow and comparisons, none of
which depend on floating-point rounding.
-/

/-! ## The Average meter (external collaborator)

Modelled from the spec: `torchnet.meter.AverageValueMeter` keeps a
running count `n` and a running sum `sum`; `add v` increments the count
and adds `v` to the sum; `value ()` is `sum / n` (undefined when `n = 0`,
modelled as `none`); `reset ()` zeroes both. -/

structure AverageValueMeter where
  n : ℕ
  sum : ℚ
deriving DecidableEq, Repr

def AverageValueMeter.init : AverageValueMeter := ⟨0, 0⟩

def AverageValueMeter.add (m : AverageValueMeter) (v : ℚ) : AverageValueMeter :=
  ⟨m.n + 1, m.sum + v⟩

def AverageValueMeter.value (m : AverageValueMeter) : Option ℚ :=
  if m.n = 0 then none else some (m.sum / m.n)

def AverageValueMeter.reset (_ : AverageValueMeter) : AverageValueMeter :=
  AverageValueMeter.init

/-! ## Association-list primitives

`PCKhEvaluator.meters` is a Python `dict` from meter name to meter, and
the JSON files of the folder sink are JSON objects; both are embedded as
association lists with the dict's insertion order. -/

/-- `dictLookup m k` is Python's `m[k]` / `k in m` on a `dict` embedded
as an association list (first match; a real `dict` has unique keys). -/
def dictLookup {α : Type} : List (String × α) → String → Option α
  | [], _ => none
  | (nm, x) :: rest, k => if nm = k then some x else dictLookup rest k

/-! ## PCKhEvaluator (`src/dsnt/eval.py`) -/

/-- `PCKhEvaluator.JOINT_NAMES`: the fixed ordered table of the 16 MPII
joint names (`src/dsnt/eval.py`, lines 6-10). -/
def JOINT_NAMES : List String :=
  ["rankle", "rknee", "rhip", "lhip", "lknee", "lankle", "pelvis", "thorax",
   "upperneck", "headtop", "rwrist", "relbow", "rshoulder", "lshoulder",
   "lelbow", "lwrist"]

/-- The evaluator's state: the ordered `self.meters` dict. -/
structure PCKhEvaluator where
  meters : List (String × AverageValueMeter)

/-- `PCKhEvaluator.__init__`: one `'all'` meter followed by one meter per
joint name, in table order. -/
def PCKhEvaluator.init : PCKhEvaluator :=
  ⟨("all", AverageValueMeter.init) ::
    JOINT_NAMES.map (fun joint_name => (joint_name, AverageValueMeter.init))⟩

/-- `self.meters[k].add(v)`: update the meter stored under key `k`.
In Python a missing key raises `KeyError`; in every reachable use the key
is present (`'all'` always, a joint name whenever `j < 16`), so the
missing-key branch (identity) is never taken in the proofs below. -/
def updateMeter : List (String × AverageValueMeter) → String → ℚ →
    List (String × AverageValueMeter)
  | [], _, _ => []
  | (nm, m) :: rest, k, v =>
    if nm = k then (nm, m.add v) :: rest else (nm, m) :: updateMeter rest k v

/-- The body of the comparison in `add`:
`dist = torch.dist(target[b,j], pred[b,j]) / head_lengths[b]` followed by
`thresholded = dist <= 0.5 and 1 or 0` (Python's and/or idiom for
`1 if dist <= 0.5 else 0`). Here `d` is the value returned by
`torch.dist` (the Euclidean norm of the difference, an external `torch`
function, carried as an exact rational) and `len` is `head_lengths[b]`. -/
def pckhThreshold (d len : ℚ) : ℚ :=
  if d / len ≤ 1/2 then 1 else 0

/-- One iteration of the double loop in `PCKhEvaluator.add` at indices
`(b, j)`: skip unless `joint_mask[b, j] == 1`; otherwise record the
thresholded indicator into the `'all'` meter and into the meter named
`JOINT_NAMES[j]`. `dist b j` stands for `torch.dist(target[b,j], pred[b,j])`.
(Python's `JOINT_NAMES[j]` raises `IndexError` for `j ≥ 16`; the embedding
totalises it with `getD`, and every theorem below stays inside `j < 16`.) -/
def pckhLoopBody (dist : ℕ → ℕ → ℚ) (joint_mask : ℕ → ℕ → ℤ)
    (head_lengths : ℕ → ℚ) (ms : List (String × AverageValueMeter))
    (b j : ℕ) : List (String × AverageValueMeter) :=
  if joint_mask b j = 1 then
    let thresholded := pckhThreshold (dist b j) (head_lengths b)
    updateMeter (updateMeter ms "all" thresholded)
      (JOINT_NAMES.getD j "") thresholded
  else ms

/-- `PCKhEvaluator.add(pred, target, joint_mask, head_lengths)`:
`for b in range(batch_size): for j in range(n_joints): ...` with
`batch_size = pred.size(0)` and `n_joints = pred.size(1)` passed
explicitly, the prediction and target tensors entering only through the
pairwise distances `dist b j`. -/
def PCKhEvaluator.add (e : PCKhEvaluator) (batch_size n_joints : ℕ)
    (dist : ℕ → ℕ → ℚ) (joint_mask : ℕ → ℕ → ℤ)
    (head_lengths : ℕ → ℚ) : PCKhEvaluator :=
  ⟨(List.range batch_size).foldl (fun ms b =>
      (List.range n_joints).foldl (fun ms' j =>
        pckhLoopBody dist joint_mask head_lengths ms' b j) ms) e.meters⟩

/-- `PCKhEvaluator.reset`: `for meter_name, meter in self.meters.items(): meter.reset()`. -/
def PCKhEvaluator.reset (e : PCKhEvaluator) : PCKhEvaluator :=
  ⟨e.meters.map (fun p => (p.1, p.2.reset))⟩

/-- Sample count of the meter named `name` (0 if absent). -/
def PCKhEvaluator.meterN (e : PCKhEvaluator) (name : String) : ℕ :=
  ((dictLookup e.meters name).map AverageValueMeter.n).getD 0

/-- Running sum of the meter named `name` (0 if absent). -/
def PCKhEvaluator.meterSum (e : PCKhEvaluator) (name : String) : ℚ :=
  ((dictLookup e.meters name).map AverageValueMeter.sum).getD 0

/-- Combined sample count of the 16 per-joint meters. -/
def PCKhEvaluator.jointNSum (e : PCKhEvaluator) : ℕ :=
  (JOINT_NAMES.map (fun nm => e.meterN nm)).sum

/-- Combined running sum of the 16 per-joint meters. -/
def PCKhEvaluator.jointSumSum (e : PCKhEvaluator) : ℚ :=
  (JOINT_NAMES.map (fun nm => e.meterSum nm)).sum

/-- The arguments of one call to `PCKhEvaluator.add`. -/
structure AddCall where
  batch_size : ℕ
  n_joints : ℕ
  dist : ℕ → ℕ → ℚ
  joint_mask : ℕ → ℕ → ℤ
  head_lengths : ℕ → ℚ

/-- Apply a sequence of `add` calls in order. -/
def PCKhEvaluator.applyCalls (e : PCKhEvaluator) (calls : List AddCall) :
    PCKhEvaluator :=
  calls.foldl (fun ev c =>
    ev.add c.batch_size c.n_joints c.dist c.joint_mask c.head_lengths) e

/-! ## Aggregate/per-joint bookkeeping for the evaluator (claim C5) -/

def metersNOf (ms : List (String × AverageValueMeter)) (name : String) : ℕ :=
  ((dictLookup ms name).map AverageValueMeter.n).getD 0

def metersSumOf (ms : List (String × AverageValueMeter)) (name : String) : ℚ :=
  ((dictLookup ms name).map AverageValueMeter.sum).getD 0

def pckhKeysPresent (ms : List (String × AverageValueMeter)) : Prop :=
  (dictLookup ms "all").isSome = true ∧
  ∀ nm ∈ JOINT_NAMES, (dictLookup ms nm).isSome = true

def pckhBalanced (ms : List (String × AverageValueMeter)) : Prop :=
  metersNOf ms "all" = (JOINT_NAMES.map (metersNOf ms)).sum ∧
  metersSumOf ms "all" = (JOINT_NAMES.map (metersSumOf ms)).sum

/-! ## The folder sink (`src/tele/output/folder.py`) -/

/-- JSON values, as produced by `json.load` / consumed by `json.dump`. -/
inductive JValue : Type
  | null : JValue
  | bool (b : Bool) : JValue
  | num (q : ℚ) : JValue
  | str (s : String) : JValue
  | arr (xs : List JValue) : JValue
  | obj (fields : List (String × JValue)) : JValue

/-- A meter object as handed to a cell's `render` (external collaborator,
`tele.meter` / `torchnet.meter`, not in the repository): all a folder cell
ever does with it is call `value()`, a read that returns some JSON-encodable
payload and does not change the meter; the object is modelled by that
payload. -/
structure TeleMeter where
  valueResult : JValue

/-- `meter.value()`. -/
def TeleMeter.value (m : TeleMeter) : JValue := m.valueResult

/-- The operations a meter exposes (spec section 3); used to record which of
them a `render` implementation invokes. -/
inductive MeterOp : Type
  | value : MeterOp
  | add (v : ℚ) : MeterOp
  | reset : MeterOp

/-- Effect of a meter operation on the modelled Average meter state:
`value` is a pure read, `add`/`reset` mutate. -/
def MeterOp.apply : MeterOp → AverageValueMeter → AverageValueMeter
  | MeterOp.value, m => m
  | MeterOp.add v, m => m.add v
  | MeterOp.reset, m => m.reset

/-- Python `'{:04d}'.format`-style zero-padding of `n` to width 4. -/
def pad4 (n : ℕ) : List Char :=
  List.replicate (4 - (toString n).length) '0' ++ (toString n).toList

/-- Replace every occurrence of the field `'\x7b:04d\x7d'` in a character
stream by `sub` (the body of Python's `str.format` for the only field
shape the repository uses; a template with no field is left unchanged,
exactly as `str.format` leaves it). -/
def pyFormatAux (sub : List Char) : List Char → List Char
  | '\x7b' :: ':' :: '0' :: '4' :: 'd' :: '\x7d' :: rest => sub ++ pyFormatAux sub rest
  | c :: cs => c :: pyFormatAux sub cs
  | [] => []

/-- `template.format(step_num)` for the templates of `folder.py`. -/
def pyFormat (template : String) (n : ℕ) : String :=
  ⟨pyFormatAux (pad4 n) template.toList⟩

/-- `os.path.join(dir, name)` for a relative `name`. -/
def osPathJoin (dir name : String) : String := dir ++ "/" ++ name

/-- `FolderCell.__init__`/state: the filename template and the directory
set later by `set_dir` (`None` until `FolderOutput.prepare` runs). -/
structure FolderCell where
  filename_template : String
  dir_path : Option String

/-- `FolderCell.set_dir`. -/
def FolderCell.set_dir (c : FolderCell) (dir : String) : FolderCell :=
  { c with dir_path := some dir }

/-- `FolderCell.build_path`:
`os.path.join(self.dir_path, self.filename_template.format(step_num))`.
(Python would raise if `set_dir` had not run; every claim is after
`prepare`, so the `getD` default is never reached.) -/
def FolderCell.build_path (c : FolderCell) (step_num : ℕ) : String :=
  osPathJoin (c.dir_path.getD "") (pyFormat c.filename_template step_num)

/-- `JSONCell.__init__` with the default template `'metrics_{:04d}.json'`
(written with escaped braces). -/
def JSONCell.init : FolderCell :=
  ⟨⟨['m', 'e', 't', 'r', 'i', 'c', 's', '_', '\x7b', ':', '0', '4', 'd', '\x7d',
     '.', 'j', 's', 'o', 'n']⟩, none⟩

/-- `GrowingJSONCell.__init__` with the default template
`'saved_metrics.json'`. -/
def GrowingJSONCell.init : FolderCell :=
  ⟨"saved_metrics.json", none⟩

/-! ### `JSONCell.render` (snapshot view)

`render` builds the path for this step, reduces each subscribed meter
with `meter.value()` in dict order, and writes the resulting JSON object
over whatever the file contained (`open(path, 'w')` truncates). -/

/-- The JSON object `JSONCell.render` dumps: `{name: meter.value()}` in
subscription order. -/
def JSONCell.renderContent (meters : List (String × TeleMeter)) :
    List (String × JValue) :=
  meters.map (fun p => (p.1, p.2.value))

/-- A flat file store: path to JSON content currently on disk. -/
abbrev FileStore : Type := List (String × List (String × JValue))

/-- `open(path, 'w')` + `json.dump(content, f)`: replace the content at
`path`, creating the file if absent. -/
def writeFile : FileStore → String → List (String × JValue) → FileStore
  | [], path, content => [(path, content)]
  | (p, c) :: rest, path, content =>
    if p = path then (p, content) :: rest else (p, c) :: writeFile rest path content

/-- `JSONCell.render(step_num, meters)` acting on the file store. -/
def JSONCell.render (c : FolderCell) (step_num : ℕ)
    (meters : List (String × TeleMeter)) (files : FileStore) : FileStore :=
  writeFile files (c.build_path step_num) (JSONCell.renderContent meters)

/-! ### `GrowingJSONCell.render` (growing-log view)

The growing file is a JSON object mapping each key to the array of its
previously recorded values. `render` re-reads it from disk (empty object
if the file does not exist), appends `meter.value()` under every
subscribed key — initialising the key to `[]` first when absent, which
puts a fresh key at the end, in dict insertion order — and writes the
whole object back. Values written by this `render` are always arrays, so
array-shaped objects are closed under `render`; on a hand-edited file
holding a non-array value Python would raise (`AttributeError` on
`.append`), which is outside every claim's scenarios. -/

/-- One loop iteration of `GrowingJSONCell.render`:
`if not meter_name in values: values[meter_name] = []` followed by
`values[meter_name].append(meter.value())`. -/
def growAppend : List (String × List JValue) → String → JValue →
    List (String × List JValue)
  | [], k, v => [(k, [v])]
  | (nm, xs) :: rest, k, v =>
    if nm = k then (nm, xs ++ [v]) :: rest else (nm, xs) :: growAppend rest k v

/-- `GrowingJSONCell.render(step_num, meters)` as a function of the
current file content (`none` = file absent) to the content written back. -/
def GrowingJSONCell.render (existing : Option (List (String × List JValue)))
    (meters : List (String × TeleMeter)) : List (String × List JValue) :=
  meters.foldl (fun values p => growAppend values p.1 p.2.value) (existing.getD [])

/-- A run of successive `render` calls, each writing the file the next
one reads. -/
def GrowingJSONCell.renderSeq (fileContent : List (String × List JValue))
    (steps : List (List (String × TeleMeter))) : List (String × List JValue) :=
  steps.foldl (fun values meters => GrowingJSONCell.render (some values) meters)
    fileContent

/-! ### File-system operation traces (claim C2) -/

/-- The file-system operations `folder.py` can perform on paths. -/
inductive FsOp : Type
  | checkIsFile (path : String) : FsOp
  | openRead (path : String) : FsOp
  | openWrite (path : String) : FsOp
  | rename (src dst : String) : FsOp
deriving DecidableEq

/-- The exact file-operation trace of one `GrowingJSONCell.render` call on
its file path: `os.path.isfile`, then `open(file_path, 'r')` when the file
exists, then `open(file_path, 'w')` — which truncates the target in place. -/
def GrowingJSONCell.renderOps (file_path : String) (fileExists : Bool) :
    List FsOp :=
  FsOp.checkIsFile file_path ::
    (if fileExists then [FsOp.openRead file_path] else []) ++
    [FsOp.openWrite file_path]

/-- Stated from the spec's words (for comparison with the code): the
serialisation is atomic because the write goes to a temporary path
distinct from the target and the temporary file is then renamed over the
target. -/
def atomicTempRenameWrite (ops : List FsOp) (target : String) : Prop :=
  ∃ tmp, tmp ≠ target ∧ FsOp.openWrite tmp ∈ ops ∧ FsOp.rename tmp target ∈ ops

/-! ### Meter-operation traces of `render` (claim C7) -/

/-- Meter operations invoked by `JSONCell.render`: one `value()` call per
subscribed meter (`values[meter_name] = meter.value()`). -/
def JSONCell.renderMeterTrace (meters : List (String × TeleMeter)) :
    List (String × MeterOp) :=
  meters.map (fun p => (p.1, MeterOp.value))

/-- Meter operations invoked by `GrowingJSONCell.render`: one `value()`
call per subscribed meter (`values[meter_name].append(meter.value())`). -/
def GrowingJSONCell.renderMeterTrace (meters : List (String × TeleMeter)) :
    List (String × MeterOp) :=
  meters.map (fun p => (p.1, MeterOp.value))

/-! ### `FolderOutput.prepare` -/

/-- `os.makedirs(path)` with the default `exist_ok=False` (Python stdlib
semantics): create the directory, raising `FileExistsError` if `path`
already exists. -/
def makedirs (dirs : List String) (path : String) :
    Except String (List String) :=
  if path ∈ dirs then Except.error "FileExistsError" else Except.ok (dirs ++ [path])

/-- `FolderOutput` state: the destination directory path. -/
structure FolderOutput where
  dir_path : String

/-- `FolderOutput.prepare(meters)`: after the superclass bookkeeping (in
the `tele` core, outside this repository), `os.makedirs(self.dir_path)`,
then `cell.set_dir(self.dir_path)` for every registered cell. -/
def FolderOutput.prepare (o : FolderOutput) (dirs : List String)
    (cells : List FolderCell) : Except String (List String × List FolderCell) :=
  match makedirs dirs o.dir_path with
  | Except.error e => Except.error e
  | Except.ok dirs' => Except.ok (dirs', cells.map (fun c => c.set_dir o.dir_path))

/-! ## Lemmas about meter updates -/

lemma dictLookup_updateMeter (ms : List (String × AverageValueMeter)) (k k' : String) (v : ℚ) :
    dictLookup (updateMeter ms k v) k' =
      if k' = k then (dictLookup ms k').map (fun m => m.add v) else dictLookup ms k' := by
  induction ms with
  | nil => simp [updateMeter, dictLookup]
  | cons p rest ih =>
    obtain ⟨nm, m⟩ := p
    by_cases h1 : nm = k
    · subst h1
      by_cases h2 : nm = k'
      · subst h2
        simp [updateMeter, dictLookup]
      · have h2' : ¬ k' = nm := fun h => h2 h.symm
        simp [updateMeter, dictLookup, h2, h2']
    · by_cases h2 : nm = k'
      · subst h2
        simp [updateMeter, dictLookup, h1]
      · simp [updateMeter, dictLookup, h1, h2, ih]

lemma foldl_fixed {α β : Type} (f : α → β → α) (l : List β) (a : α)
    (h : ∀ acc, ∀ x ∈ l, f acc x = acc) : l.foldl f a = a := by
  induction l generalizing a with
  | nil => rfl
  | cons x xs ih =>
    rw [List.foldl_cons, h a x (List.mem_cons_self x xs)]
    exact ih a (fun acc y hy => h acc y (List.mem_cons_of_mem x hy))

lemma list_sum_map_bump {M : Type} [AddCommMonoid M] (L : List String) (hnd : L.Nodup)
    (x : String) (hx : x ∈ L) (f g : String → M) (c : M)
    (hgx : g x = f x + c) (hother : ∀ y ∈ L, y ≠ x → g y = f y) :
    (L.map g).sum = (L.map f).sum + c := by
  induction L with
  | nil => cases hx
  | cons a as ih =>
    rw [List.nodup_cons] at hnd
    simp only [List.map_cons, List.sum_cons]
    rcases List.mem_cons.mp hx with rfl | hx2
    · have hg : as.map g = as.map f :=
        List.map_congr_left (fun y hy => hother y (List.mem_cons_of_mem _ hy)
          (fun hyx => hnd.1 (hyx ▸ hy)))
      rw [hgx, hg, add_right_comm]
    · have hax : a ≠ x := fun h => hnd.1 (h ▸ hx2)
      rw [hother a (List.mem_cons_self a as) hax,
        ih hnd.2 hx2 (fun y hy hyx => hother y (List.mem_cons_of_mem _ hy) hyx), add_assoc]

lemma foldl_preserves {α β : Type} (P : α → Prop) (f : α → β → α) (l : List β) (a : α)
    (ha : P a) (h : ∀ acc, P acc → ∀ x ∈ l, P (f acc x)) : P (l.foldl f a) := by
  induction l generalizing a with
  | nil => exact ha
  | cons x xs ih =>
    exact ih (f a x) (h a ha x (List.mem_cons_self _ _))
      (fun acc hacc y hy => h acc hacc y (List.mem_cons_of_mem _ hy))

lemma pckh_step_invariant (dist : ℕ → ℕ → ℚ) (mask : ℕ → ℕ → ℤ) (lens : ℕ → ℚ)
    (ms : List (String × AverageValueMeter)) (b j : ℕ) (hj : j < 16)
    (hinv : pckhKeysPresent ms ∧ pckhBalanced ms) :
    pckhKeysPresent (pckhLoopBody dist mask lens ms b j) ∧
    pckhBalanced (pckhLoopBody dist mask lens ms b j) := by
  obtain ⟨hp, hb⟩ := hinv
  by_cases hm : mask b j = 1
  · have hmem : JOINT_NAMES.getD j "" ∈ JOINT_NAMES := by
      have h16 : ∀ i, i < 16 → JOINT_NAMES.getD i "" ∈ JOINT_NAMES := by decide
      exact h16 j hj
    have hall_not : "all" ∉ JOINT_NAMES := by decide
    have hne : JOINT_NAMES.getD j "" ≠ "all" := fun h => hall_not (h ▸ hmem)
    have hnd : JOINT_NAMES.Nodup := by decide
    set nj := JOINT_NAMES.getD j "" with hnj
    set v := pckhThreshold (dist b j) (lens b) with hv
    have hbody : pckhLoopBody dist mask lens ms b j
        = updateMeter (updateMeter ms "all" v) nj v := by
      unfold pckhLoopBody
      rw [if_pos hm]
    obtain ⟨mall, hmall⟩ := Option.isSome_iff_exists.mp hp.1
    obtain ⟨mj, hmj⟩ := Option.isSome_iff_exists.mp (hp.2 nj hmem)
    -- lookups in the doubly-updated bank
    have l2 : ∀ k, dictLookup (updateMeter (updateMeter ms "all" v) nj v) k
        = if k = nj then (dictLookup (updateMeter ms "all" v) k).map (fun m => m.add v)
          else dictLookup (updateMeter ms "all" v) k :=
      fun k => dictLookup_updateMeter _ nj k v
    have l1 : ∀ k, dictLookup (updateMeter ms "all" v) k
        = if k = "all" then (dictLookup ms k).map (fun m => m.add v) else dictLookup ms k :=
      fun k => dictLookup_updateMeter ms "all" k v
    have lall : dictLookup (updateMeter (updateMeter ms "all" v) nj v) "all"
        = some (mall.add v) := by
      rw [l2, if_neg (fun h => hne h.symm), l1, if_pos rfl, hmall]
      rfl
    have lnj : dictLookup (updateMeter (updateMeter ms "all" v) nj v) nj
        = some (mj.add v) := by
      rw [l2, if_pos rfl, l1, if_neg hne, hmj]
      rfl
    have lother : ∀ nm, nm ≠ nj → nm ≠ "all" →
        dictLookup (updateMeter (updateMeter ms "all" v) nj v) nm = dictLookup ms nm := by
      intro nm h1 h2
      rw [l2, if_neg h1, l1, if_neg h2]
    constructor
    · rw [hbody]
      refine ⟨by rw [lall]; rfl, fun nm hnm => ?_⟩
      by_cases h1 : nm = nj
      · rw [h1, lnj]; rfl
      · have h2 : nm ≠ "all" := fun h => hall_not (h ▸ hnm)
        rw [lother nm h1 h2]
        exact hp.2 nm hnm
    · rw [hbody]
      constructor
      · have hN : metersNOf (updateMeter (updateMeter ms "all" v) nj v) "all"
            = metersNOf ms "all" + 1 := by
          simp [metersNOf, lall, hmall, AverageValueMeter.add]
        rw [hN, hb.1]
        refine (list_sum_map_bump JOINT_NAMES hnd nj hmem
          (metersNOf ms) (metersNOf (updateMeter (updateMeter ms "all" v) nj v)) 1
          ?_ ?_).symm
        · simp [metersNOf, lnj, hmj, AverageValueMeter.add]
        · intro y hy hyne
          have h2 : y ≠ "all" := fun h => hall_not (h ▸ hy)
          simp [metersNOf, lother y hyne h2]
      · have hS : metersSumOf (updateMeter (updateMeter ms "all" v) nj v) "all"
            = metersSumOf ms "all" + v := by
          simp [metersSumOf, lall, hmall, AverageValueMeter.add]
        rw [hS, hb.2]
        refine (list_sum_map_bump JOINT_NAMES hnd nj hmem
          (metersSumOf ms) (metersSumOf (updateMeter (updateMeter ms "all" v) nj v)) v
          ?_ ?_).symm
        · simp [metersSumOf, lnj, hmj, AverageValueMeter.add]
        · intro y hy hyne
          have h2 : y ≠ "all" := fun h => hall_not (h ▸ hy)
          simp [metersSumOf, lother y hyne h2]
  · simpa [pckhLoopBody, hm] using ⟨hp, hb⟩

lemma pckh_add_invariant (e : PCKhEvaluator) (B J : ℕ) (dist : ℕ → ℕ → ℚ)
    (mask : ℕ → ℕ → ℤ) (lens : ℕ → ℚ) (hJ : J ≤ 16)
    (hinv : pckhKeysPresent e.meters ∧ pckhBalanced e.meters) :
    pckhKeysPresent (e.add B J dist mask lens).meters ∧
    pckhBalanced (e.add B J dist mask lens).meters := by
  have h : pckhKeysPresent ((List.range B).foldl (fun ms b =>
        (List.range J).foldl (fun ms' j =>
          pckhLoopBody dist mask lens ms' b j) ms) e.meters) ∧
      pckhBalanced ((List.range B).foldl (fun ms b =>
        (List.range J).foldl (fun ms' j =>
          pckhLoopBody dist mask lens ms' b j) ms) e.meters) := by
    refine foldl_preserves (fun ms => pckhKeysPresent ms ∧ pckhBalanced ms)
      _ _ _ hinv ?_
    intro acc hacc b _
    refine foldl_preserves (fun ms => pckhKeysPresent ms ∧ pckhBalanced ms)
      _ _ _ hacc ?_
    intro acc2 hacc2 j hj
    exact pckh_step_invariant dist mask lens acc2 b j
      (lt_of_lt_of_le (List.mem_range.mp hj) hJ) hacc2
  exact h

lemma pckh_init_invariant :
    pckhKeysPresent PCKhEvaluator.init.meters ∧ pckhBalanced PCKhEvaluator.init.meters := by
  refine ⟨⟨by decide, by decide⟩, by decide, ?_⟩
  show metersSumOf _ "all" = _
  norm_num [metersSumOf, PCKhEvaluator.init, JOINT_NAMES, dictLookup,
    AverageValueMeter.init]

/-! ## Lemmas about the growing log and the file store -/

lemma dictLookup_growAppend_ne (vs : List (String × List JValue)) (nm k : String)
    (v : JValue) (h : nm ≠ k) :
    dictLookup (growAppend vs nm v) k = dictLookup vs k := by
  induction vs with
  | nil => simp [growAppend, dictLookup, h]
  | cons p rest ih =>
    obtain ⟨nm', xs⟩ := p
    by_cases h1 : nm' = nm
    · subst h1
      simp [growAppend, dictLookup, h]
    · by_cases h2 : nm' = k
      · subst h2
        simp [growAppend, dictLookup, h1]
      · simp [growAppend, dictLookup, h1, h2, ih]

lemma dictLookup_growAppend_eq (vs : List (String × List JValue)) (k : String)
    (v : JValue) :
    dictLookup (growAppend vs k v) k = some ((dictLookup vs k).getD [] ++ [v]) := by
  induction vs with
  | nil => simp [growAppend, dictLookup]
  | cons p rest ih =>
    obtain ⟨nm, xs⟩ := p
    by_cases h1 : nm = k
    · subst h1
      simp [growAppend, dictLookup]
    · simp [growAppend, dictLookup, h1, ih]

lemma growFold_lookup_ne (ms : List (String × TeleMeter))
    (vs : List (String × List JValue)) (k : String)
    (h : ∀ p ∈ ms, p.1 ≠ k) :
    dictLookup (ms.foldl (fun values p => growAppend values p.1 p.2.value) vs) k
      = dictLookup vs k := by
  induction ms generalizing vs with
  | nil => rfl
  | cons p rest ih =>
    rw [List.foldl_cons,
      ih _ (fun q hq => h q (List.mem_cons_of_mem _ hq)),
      dictLookup_growAppend_ne _ _ _ _ (h p (List.mem_cons_self _ _))]

lemma growFold_lookup_subscribed (ms : List (String × TeleMeter))
    (vs : List (String × List JValue)) (k : String) (m : TeleMeter)
    (hnd : (ms.map Prod.fst).Nodup) (hm : dictLookup ms k = some m) :
    dictLookup (ms.foldl (fun values p => growAppend values p.1 p.2.value) vs) k
      = some ((dictLookup vs k).getD [] ++ [m.value]) := by
  induction ms generalizing vs with
  | nil => simp [dictLookup] at hm
  | cons p rest ih =>
    obtain ⟨nm, m0⟩ := p
    rw [List.map_cons, List.nodup_cons] at hnd
    by_cases h1 : nm = k
    · subst h1
      rw [dictLookup, if_pos rfl] at hm
      injection hm with hm
      subst hm
      have hrest : ∀ q ∈ rest, q.1 ≠ nm := by
        intro q hq hqk
        have hmem : q.1 ∈ rest.map Prod.fst := List.mem_map_of_mem Prod.fst hq
        rw [hqk] at hmem
        exact hnd.1 hmem
      rw [List.foldl_cons, growFold_lookup_ne rest _ nm hrest,
        dictLookup_growAppend_eq]
    · rw [dictLookup, if_neg h1] at hm
      rw [List.foldl_cons, ih _ hnd.2 hm,
        dictLookup_growAppend_ne _ _ _ _ h1]

lemma renderSeq_lookup_append (k : String)
    (steps : List (List (String × TeleMeter))) (vals : List JValue)
    (hsub : List.Forall₂ (fun ms v => ((ms.map Prod.fst).Nodup ∧
        (dictLookup ms k).map TeleMeter.value = some v)) steps vals) :
    ∀ vs acc, dictLookup vs k = some acc →
      dictLookup (GrowingJSONCell.renderSeq vs steps) k = some (acc ++ vals) := by
  induction hsub with
  | nil =>
    intro vs acc h
    simpa [GrowingJSONCell.renderSeq] using h
  | @cons ms v steps2 vals2 h1 _ ih =>
    intro vs acc h
    obtain ⟨hnd, hv⟩ := h1
    cases hmk : dictLookup ms k with
    | none => rw [hmk] at hv; simp at hv
    | some m =>
      rw [hmk] at hv
      have hval : m.value = v := by simpa using hv
      have hstep := growFold_lookup_subscribed ms vs k m hnd hmk
      rw [h, Option.getD_some] at hstep
      have hrec := ih (GrowingJSONCell.render (some vs) ms) (acc ++ [m.value]) hstep
      show dictLookup
        (GrowingJSONCell.renderSeq (GrowingJSONCell.render (some vs) ms) steps2) k = _
      rw [hrec, hval, List.append_assoc, List.singleton_append]

lemma dictLookup_writeFile_eq (files : FileStore) (path : String)
    (content : List (String × JValue)) :
    dictLookup (writeFile files path content) path = some content := by
  induction files with
  | nil => simp [writeFile, dictLookup]
  | cons p rest ih =>
    obtain ⟨q, c⟩ := p
    by_cases h1 : q = path
    · subst h1
      simp [writeFile, dictLookup]
    · simp [writeFile, dictLookup, h1, ih]

lemma dictLookup_writeFile_ne (files : FileStore) (path q : String)
    (content : List (String × JValue)) (h : q ≠ path) :
    dictLookup (writeFile files path content) q = dictLookup files q := by
  induction files with
  | nil => simp [writeFile, dictLookup, Ne.symm h]
  | cons p rest ih =>
    obtain ⟨p1, c⟩ := p
    by_cases h1 : p1 = path
    · subst h1
      simp [writeFile, dictLookup, Ne.symm h]
    · by_cases h2 : p1 = q
      · subst h2
        simp [writeFile, dictLookup, h1]
      · simp [writeFile, dictLookup, h1, h2, ih]

/-- The default growing-log template `'saved_metrics.json'` contains no
format field, so the growing view reads and writes one fixed path, the
same at every step. -/
lemma growing_default_path_constant (d : String) (n1 n2 : ℕ) :
    (GrowingJSONCell.init.set_dir d).build_path n1
      = (GrowingJSONCell.init.set_dir d).build_path n2 := by
  simp [FolderCell.build_path, FolderCell.set_dir, GrowingJSONCell.init,
    osPathJoin, pyFormat, pyFormatAux]

/-! ## Claim theorems: PCKhEvaluator masking, threshold, structure -/

/-- C3: every `(b, j)` entry whose `joint_mask` value is not set is skipped
entirely by `PCKhEvaluator.add` — it changes no meter's value and no
meter's sample count; in particular an all-false mask leaves the
evaluator unchanged. -/
theorem pckh_unmasked_entries_skipped (e : PCKhEvaluator) (B J : ℕ)
    (dist : ℕ → ℕ → ℚ) (joint_mask : ℕ → ℕ → ℤ) (head_lengths : ℕ → ℚ)
    (hmask : ∀ b j, b < B → j < J → joint_mask b j ≠ 1) :
    (∀ ms b j, joint_mask b j ≠ 1 →
        pckhLoopBody dist joint_mask head_lengths ms b j = ms) ∧
    e.add B J dist joint_mask head_lengths = e := by
  refine ⟨fun ms b j h => by simp [pckhLoopBody, h], ?_⟩
  obtain ⟨ms⟩ := e
  simp only [PCKhEvaluator.add, PCKhEvaluator.mk.injEq]
  apply foldl_fixed
  intro acc b hb
  apply foldl_fixed
  intro acc' j hj
  have h : joint_mask b j ≠ 1 := hmask b j (List.mem_range.mp hb) (List.mem_range.mp hj)
  simp [pckhLoopBody, h]

/-- Witness for C3: a 2x17 batch with an all-zero mask leaves the fresh
evaluator exactly as it was. -/
theorem pckh_unmasked_witness :
    PCKhEvaluator.init.add 2 17 (fun _ _ => 3) (fun _ _ => 0) (fun _ => 1)
      = PCKhEvaluator.init :=
  (pckh_unmasked_entries_skipped PCKhEvaluator.init 2 17 (fun _ _ => 3)
    (fun _ _ => 0) (fun _ => 1) (by intro b j hb hj; norm_num)).2

/-- C9: a freshly constructed `PCKhEvaluator` holds exactly 17 meters —
the aggregate `'all'` meter followed by one meter per each of the 16
fixed, ordered joint names — and `reset` resets every one of them to the
zeroed meter while keeping the key list. -/
theorem pckh_seventeen_meters_and_reset :
    PCKhEvaluator.init.meters.length = 17 ∧
    JOINT_NAMES.length = 16 ∧
    PCKhEvaluator.init.meters.map Prod.fst = "all" :: JOINT_NAMES ∧
    ∀ e : PCKhEvaluator,
      e.reset.meters.map Prod.fst = e.meters.map Prod.fst ∧
      ∀ p ∈ e.reset.meters, p.2 = AverageValueMeter.init := by
  refine ⟨by decide, by decide, by decide, fun e => ⟨?_, ?_⟩⟩
  · simp [PCKhEvaluator.reset]
  · intro p hp
    simp [PCKhEvaluator.reset] at hp
    obtain ⟨a, b, hab, rfl⟩ := hp
    rfl

/-- C4: a masked joint whose normalized distance `dist / head_length` is
exactly the threshold `0.5` is recorded as a hit (the comparison is `<=`,
not `<`): the indicator is 1 and a single-entry `add` on a fresh
evaluator gives the `'all'` meter one sample of sum 1; a normalized
distance strictly above `0.5` is recorded as a miss (one sample, sum 0). -/
theorem pckh_threshold_half_is_hit (d len : ℚ) :
    (d / len = 1/2 →
      pckhThreshold d len = 1 ∧
      dictLookup (PCKhEvaluator.init.add 1 1 (fun _ _ => d) (fun _ _ => 1)
          (fun _ => len)).meters "all" = some ⟨1, 1⟩) ∧
    (1/2 < d / len →
      pckhThreshold d len = 0 ∧
      dictLookup (PCKhEvaluator.init.add 1 1 (fun _ _ => d) (fun _ _ => 1)
          (fun _ => len)).meters "all" = some ⟨1, 0⟩) := by
  constructor
  · intro h
    have ht : pckhThreshold d len = 1 := by simp [pckhThreshold, h]
    refine ⟨ht, ?_⟩
    simp [PCKhEvaluator.add, List.range_succ, pckhLoopBody, ht, PCKhEvaluator.init,
      JOINT_NAMES, updateMeter, dictLookup, AverageValueMeter.add, AverageValueMeter.init]
  · intro h
    have hn : ¬ d / len ≤ 1/2 := not_le.mpr h
    have ht : pckhThreshold d len = 0 := by
      simp only [pckhThreshold, if_neg hn]
    refine ⟨ht, ?_⟩
    simp [PCKhEvaluator.add, List.range_succ, pckhLoopBody, ht, PCKhEvaluator.init,
      JOINT_NAMES, updateMeter, dictLookup, AverageValueMeter.add, AverageValueMeter.init]

/-- Witness for C4: at `d = 1, len = 2` the ratio is exactly 0.5 and the
indicator is a hit; at `d = 2, len = 2` it is 1 and the indicator is a miss. -/
theorem pckh_threshold_half_witness :
    pckhThreshold 1 2 = 1 ∧ pckhThreshold 2 2 = 0 :=
  ⟨((pckh_threshold_half_is_hit 1 2).1 (by norm_num)).1,
   ((pckh_threshold_half_is_hit 2 2).2 (by norm_num)).1⟩

/-- C5: every masked entry records the same 0/1 indicator into the
`'all'` meter and into the joint's meter, so after any sequence of `add`
calls (each with at most the 16 tabulated joints) the sample count of
`'all'` equals the sum of the 16 per-joint sample counts, and the running
sum of `'all'` equals the sum of the per-joint running sums — hence the
aggregate mean is the mean of the combined hit/miss stream that the
per-joint meters partition. -/
theorem pckh_aggregate_partitions (calls : List AddCall)
    (hJ : ∀ c ∈ calls, c.n_joints ≤ 16) :
    (PCKhEvaluator.init.applyCalls calls).meterN "all"
        = (PCKhEvaluator.init.applyCalls calls).jointNSum ∧
    (PCKhEvaluator.init.applyCalls calls).meterSum "all"
        = (PCKhEvaluator.init.applyCalls calls).jointSumSum := by
  have hinv : pckhKeysPresent (PCKhEvaluator.init.applyCalls calls).meters ∧
      pckhBalanced (PCKhEvaluator.init.applyCalls calls).meters := by
    refine foldl_preserves
      (fun ev : PCKhEvaluator => pckhKeysPresent ev.meters ∧ pckhBalanced ev.meters)
      _ calls PCKhEvaluator.init pckh_init_invariant ?_
    intro ev hev c hc
    exact pckh_add_invariant ev c.batch_size c.n_joints c.dist c.joint_mask
      c.head_lengths (hJ c hc) hev
  exact hinv.2

/-- Witness for C5: one 1x16 fully masked `add` call on a fresh
evaluator. -/
theorem pckh_aggregate_partitions_witness :
    (PCKhEvaluator.init.applyCalls
        [⟨1, 16, fun _ _ => 0, fun _ _ => 1, fun _ => 1⟩]).meterN "all"
      = (PCKhEvaluator.init.applyCalls
        [⟨1, 16, fun _ _ => 0, fun _ _ => 1, fun _ => 1⟩]).jointNSum ∧
    (PCKhEvaluator.init.applyCalls
        [⟨1, 16, fun _ _ => 0, fun _ _ => 1, fun _ => 1⟩]).meterSum "all"
      = (PCKhEvaluator.init.applyCalls
        [⟨1, 16, fun _ _ => 0, fun _ _ => 1, fun _ => 1⟩]).jointSumSum :=
  pckh_aggregate_partitions _
    (by intro c hc; rw [List.mem_singleton] at hc; subst hc; decide)

/-! ## Claim theorems: the folder sink -/

/-- C1: after `N` successful growing-log `render` calls each supplying a
value for subscribed key `k` (in order `vals`), starting from a file in
which `k` is absent, the persisted array under `k` is exactly `vals`, in
step order with no gaps. The second conjunct shows a missing file behaves
exactly like an empty object, and the third that a run can be cut at any
point and resumed from the persisted file alone (close/reopen between any
two renders has no effect), because `render` re-reads the file rather
than keeping in-memory state. -/
theorem growing_log_append_exact (k : String)
    (steps : List (List (String × TeleMeter))) (vals : List JValue)
    (f0 : List (String × List JValue)) (hne : steps ≠ [])
    (hsub : List.Forall₂ (fun ms v => ((ms.map Prod.fst).Nodup ∧
        (dictLookup ms k).map TeleMeter.value = some v)) steps vals)
    (h0 : dictLookup f0 k = none) :
    dictLookup (GrowingJSONCell.renderSeq f0 steps) k = some vals ∧
    (∀ ms, GrowingJSONCell.render none ms = GrowingJSONCell.render (some []) ms) ∧
    (∀ (g : List (String × List JValue)) s1 s2,
      GrowingJSONCell.renderSeq g (s1 ++ s2)
        = GrowingJSONCell.renderSeq (GrowingJSONCell.renderSeq g s1) s2) := by
  refine ⟨?_, fun ms => rfl,
    fun g s1 s2 => by simp [GrowingJSONCell.renderSeq, List.foldl_append]⟩
  cases steps with
  | nil => exact absurd rfl hne
  | cons s rest =>
    cases hsub with
    | @cons _ v _ vals2 h1 h2 =>
      obtain ⟨hnd, hv⟩ := h1
      cases hmk : dictLookup s k with
      | none => rw [hmk] at hv; simp at hv
      | some m =>
        rw [hmk] at hv
        have hval : m.value = v := by simpa using hv
        have hstep := growFold_lookup_subscribed s f0 k m hnd hmk
        rw [h0] at hstep
        simp only [Option.getD_none, List.nil_append] at hstep
        have hrec := renderSeq_lookup_append k rest _ h2
          (GrowingJSONCell.render (some f0) s) [m.value] hstep
        show dictLookup
          (GrowingJSONCell.renderSeq (GrowingJSONCell.render (some f0) s) rest) k = _
        rw [hrec, hval, List.singleton_append]

/-- Witness for C1: two renders of `loss` onto a fresh file persist
`[1, 2]`. -/
theorem growing_log_append_exact_witness :
    dictLookup (GrowingJSONCell.renderSeq []
        [[("loss", ⟨JValue.num 1⟩)], [("loss", ⟨JValue.num 2⟩)]]) "loss"
      = some [JValue.num 1, JValue.num 2] :=
  (growing_log_append_exact "loss" _ _ [] (by simp)
    (by
      refine List.Forall₂.cons ⟨?_, ?_⟩ (List.Forall₂.cons ⟨?_, ?_⟩ List.Forall₂.nil)
        <;> first
        | decide
        | rfl)
    rfl).1

/-- C10: a key present in the existing on-disk mapping but not among the
meters handed to this `render` keeps its previously recorded sequence
unchanged in the rewritten file. -/
theorem growing_log_untouched_keys (existing : List (String × List JValue))
    (k : String) (xs : List JValue) (meters : List (String × TeleMeter))
    (hk : dictLookup existing k = some xs)
    (hnot : ∀ p ∈ meters, p.1 ≠ k) :
    dictLookup (GrowingJSONCell.render (some existing) meters) k = some xs := by
  have h := growFold_lookup_ne meters existing k hnot
  rw [hk] at h
  exact h

/-- Witness for C10: a render of `loss` leaves the unrelated key `old`
untouched. -/
theorem growing_log_untouched_keys_witness :
    dictLookup (GrowingJSONCell.render
        (some [("old", [JValue.num 7])]) [("loss", ⟨JValue.num 1⟩)]) "old"
      = some [JValue.num 7] :=
  growing_log_untouched_keys _ "old" _ _ rfl (by decide)

/-- Counterexample to C2: the file-operation trace of a growing-log
`render` at its default path contains no write to a temporary path
followed by a rename over the target — the write-temp-then-rename pattern
the claim asserts is absent. -/
theorem growing_render_no_rename :
    ¬ atomicTempRenameWrite
        (GrowingJSONCell.renderOps "out/saved_metrics.json" true)
        "out/saved_metrics.json" := by
  rintro ⟨tmp, -, -, hr⟩
  simp [GrowingJSONCell.renderOps] at hr

/-- C2 as amended: on every render the growing-log view serializes the
whole mapping by opening the target path itself in write mode (a
truncating, in-place overwrite) and never performs a rename; there is no
temporary file, so the overwrite is not atomic and a crash mid-write can
truncate the file. -/
theorem growing_render_direct_truncating_write (file_path : String)
    (fileExists : Bool) :
    FsOp.openWrite file_path ∈ GrowingJSONCell.renderOps file_path fileExists ∧
    ∀ src dst, FsOp.rename src dst ∉ GrowingJSONCell.renderOps file_path fileExists := by
  constructor
  · cases fileExists <;> simp [GrowingJSONCell.renderOps]
  · intro src dst h
    cases fileExists <;> simp [GrowingJSONCell.renderOps] at h

/-- C6: `FolderOutput.prepare` creates the destination directory and
fails (raises `FileExistsError` from `os.makedirs`) when the directory
already exists; it never returns successfully over an existing
directory. -/
theorem folder_prepare_fails_if_exists (o : FolderOutput) (dirs : List String)
    (cells : List FolderCell) :
    (o.dir_path ∈ dirs → ∀ r, o.prepare dirs cells ≠ Except.ok r) ∧
    (o.dir_path ∉ dirs → ∃ dirs2 cells2,
      o.prepare dirs cells = Except.ok (dirs2, cells2) ∧ o.dir_path ∈ dirs2) := by
  constructor
  · intro h r
    simp [FolderOutput.prepare, makedirs, h]
  · intro h
    refine ⟨dirs ++ [o.dir_path], cells.map (fun c => c.set_dir o.dir_path), ?_, ?_⟩
    · simp [FolderOutput.prepare, makedirs, h]
    · simp

/-- Witness for C6: preparing `out` fails when `out` exists and creates
it when it does not. -/
theorem folder_prepare_witness :
    (∀ r, (FolderOutput.mk "out").prepare ["out"] [] ≠ Except.ok r) ∧
    (∃ dirs2 cells2, (FolderOutput.mk "out").prepare [] [] = Except.ok (dirs2, cells2)
      ∧ "out" ∈ dirs2) :=
  ⟨(folder_prepare_fails_if_exists ⟨"out"⟩ ["out"] []).1 (by decide),
   (folder_prepare_fails_if_exists ⟨"out"⟩ [] []).2 (by decide)⟩

/-- Counterexample to C7: `render` is handed meter objects, not values
already reduced — its meter-operation trace on a one-meter subscription
is the one-element `value()` trace, not the empty trace the claim's
"never invokes meter operations itself" requires. -/
theorem render_invokes_value_op :
    JSONCell.renderMeterTrace [("loss", ⟨JValue.null⟩)] = [("loss", MeterOp.value)] ∧
    JSONCell.renderMeterTrace [("loss", ⟨JValue.null⟩)] ≠ [] := by
  constructor <;> simp [JSONCell.renderMeterTrace]

/-- C7 as amended: both folder views' `render` invoke exactly one meter
operation per subscribed meter — `value()`, reducing the meters
themselves — and `value()` is a pure read, so `render` never mutates
meter state. -/
theorem render_reads_only_value (meters : List (String × TeleMeter)) :
    (∀ p ∈ JSONCell.renderMeterTrace meters, p.2 = MeterOp.value) ∧
    (∀ p ∈ GrowingJSONCell.renderMeterTrace meters, p.2 = MeterOp.value) ∧
    (∀ p ∈ JSONCell.renderMeterTrace meters,
      ∀ m : AverageValueMeter, MeterOp.apply p.2 m = m) ∧
    (∀ p ∈ GrowingJSONCell.renderMeterTrace meters,
      ∀ m : AverageValueMeter, MeterOp.apply p.2 m = m) ∧
    (JSONCell.renderMeterTrace meters).map Prod.fst = meters.map Prod.fst ∧
    (GrowingJSONCell.renderMeterTrace meters).map Prod.fst = meters.map Prod.fst := by
  refine ⟨?_, ?_, ?_, ?_, ?_, ?_⟩
  · intro p hp
    obtain ⟨q, hq, rfl⟩ := List.mem_map.mp hp
    rfl
  · intro p hp
    obtain ⟨q, hq, rfl⟩ := List.mem_map.mp hp
    rfl
  · intro p hp m
    obtain ⟨q, hq, rfl⟩ := List.mem_map.mp hp
    rfl
  · intro p hp m
    obtain ⟨q, hq, rfl⟩ := List.mem_map.mp hp
    rfl
  · simp [JSONCell.renderMeterTrace]
  · simp [GrowingJSONCell.renderMeterTrace]

/-- Counterexample to C8: with the default template
`'metrics_\x7b:04d\x7d.json'`, `JSONCell.render` writes
`metrics_0000.json` at step 0 and `metrics_0001.json` at step 1 — not the
same file path for every step index. -/
theorem json_snapshot_path_not_fixed :
    (JSONCell.render (JSONCell.init.set_dir "out") 0 [] []).map Prod.fst
      = ["out/metrics_0000.json"] ∧
    (JSONCell.render (JSONCell.init.set_dir "out") 1 [] []).map Prod.fst
      = ["out/metrics_0001.json"] ∧
    (JSONCell.render (JSONCell.init.set_dir "out") 0 [] []).map Prod.fst ≠
      (JSONCell.render (JSONCell.init.set_dir "out") 1 [] []).map Prod.fst := by
  refine ⟨?_, ?_, ?_⟩ <;> decide

/-- C8 as amended: the non-growing `JSONCell` view writes one snapshot
file per step, at the path obtained by formatting the step number into
its filename template; it fully overwrites that path with exactly the
subscribed keys mapped to their current `value()` (no appended history),
and leaves every other path untouched. -/
theorem json_snapshot_overwrites (c : FolderCell) (n : ℕ)
    (meters : List (String × TeleMeter)) (files : FileStore) :
    dictLookup (JSONCell.render c n meters files) (c.build_path n)
      = some (JSONCell.renderContent meters) ∧
    (∀ q, q ≠ c.build_path n →
      dictLookup (JSONCell.render c n meters files) q = dictLookup files q) ∧
    (JSONCell.renderContent meters).map Prod.fst = meters.map Prod.fst := by
  refine ⟨dictLookup_writeFile_eq _ _ _,
    fun q hq => dictLookup_writeFile_ne _ _ _ _ hq, ?_⟩
  simp [JSONCell.renderContent]

/-- Witness for C8 (amended): a concrete snapshot render overwrites its
step-0 file with the subscribed key and leaves another file unchanged. -/
theorem json_snapshot_overwrites_witness :
    dictLookup (JSONCell.render (JSONCell.init.set_dir "out") 0
        [("loss", ⟨JValue.num 3⟩)] [("other", [])]) "out/metrics_0000.json"
      = some [("loss", JValue.num 3)] ∧
    dictLookup (JSONCell.render (JSONCell.init.set_dir "out") 0
        [("loss", ⟨JValue.num 3⟩)] [("other", [])]) "other" = some [] := by
  have h := json_snapshot_overwrites (JSONCell.init.set_dir "out") 0
    [("loss", ⟨JValue.num 3⟩)] [("other", [])]
  have hp : (JSONCell.init.set_dir "out").build_path 0 = "out/metrics_0000.json" := by
    decide
  exact ⟨by rw [← hp]; exact h.1, by rw [h.2.1 "other" (by rw [hp]; decide)]; rfl⟩
